import Mathlib

/-!
# Verification of the trading-bot risk-gated execution core

Shallow embedding of the risk manager (`src/risk/risk_manager.py`), the
portfolio ledger (`src/portfolio/portfolio_manager.py`), the order executor
(`src/execution/order_executor.py`) and the tick exit-reason logic of the
paper engine (`src/paper/paper_engine.py`) and live runner
(`src/live/live_runner.py`).

Modelling conventions:
* Python floats carrying currency/price values are modelled as exact
  rationals (`ℚ`); the Python `round(x, p)` (round-half-to-even at `p`
  decimal digits) is modelled by `pyRound`.
* Wall-clock instants (`datetime.utcnow()`) are rationals measured in
  minutes; calendar dates (`date.today()`) are naturals.
* Functions that raise (`raise ValueError(...)`) return `Except`.
* The kill switch (an environment variable read) is an explicit boolean
  parameter; `self.equity` of `RiskManager`, an instance attribute mutated
  alongside the persisted state dict, is a field of `RiskMgr` next to the
  persisted `RiskState`.
-/

namespace TradingBot

/-- Ten to an integer power `p` over `ℚ`, phrased with `Nat` powers
so that concrete instances evaluate by kernel reduction. -/
def pow10 (p : ℤ) : ℚ :=
  if 0 ≤ p then (10 : ℚ) ^ p.toNat else 1 / (10 : ℚ) ^ (-p).toNat

/-- Round-half-to-even to an integer, the semantics of the Python builtin
`round` (bankers rounding). -/
def roundHalfEven (x : ℚ) : ℤ :=
  let f := ⌊x⌋
  let frac := x - (f : ℚ)
  if frac < 1/2 then f
  else if 1/2 < frac then f + 1
  else if f % 2 = 0 then f else f + 1

/-- the Python `round(x, p)`: round-half-to-even at `p` decimal digits. -/
def pyRound (x : ℚ) (p : ℤ) : ℚ :=
  (roundHalfEven (x * pow10 p) : ℚ) / pow10 p

/-! ## Risk manager (`src/risk/risk_manager.py`) -/

/-- The `RISK` / `TRADING` configuration entries consumed by `RiskManager`
(`config/settings.py`). -/
structure RiskConfig where
  riskPerTradePct : ℚ
  maxTotalExposurePct : ℚ
  maxConcurrentPositions : ℕ
  dailyLossCapPct : ℚ
  maxDrawdownCapPct : ℚ
  consecutiveLossLimit : ℕ
  cooldownMinutes : ℚ
  minSignalConfidence : ℚ
  capitalLimitUsdt : ℚ
  minOrderUsdt : ℚ
  deriving Repr, DecidableEq

/-- The persisted risk-state dict (`RiskManager._load_state`). `dailyDate`
is a calendar date (`str(date.today())`), `cooldownUntil` an optional
instant in minutes (`cooldown_end.isoformat()`). -/
structure RiskState where
  dailyPnl : ℚ
  dailyDate : ℕ
  maxDrawdownSeen : ℚ
  peakEquity : ℚ
  consecutiveLosses : ℕ
  cooldownUntil : Option ℚ
  liveTradingDisabled : Bool
  totalPositions : ℕ
  deriving Repr, DecidableEq

/-- A `RiskManager` instance: its persisted `state` dict plus its
`self.equity` attribute. -/
structure RiskMgr where
  state : RiskState
  equity : ℚ
  deriving Repr, DecidableEq

/-- Model of `RiskManager._reset_daily_if_new_day`: when the stored date differs from
today, zero the daily PnL and stamp the current date. -/
def resetDailyIfNewDay (today : ℕ) (s : RiskState) : RiskState :=
  if s.dailyDate ≠ today then { s with dailyDate := today, dailyPnl := 0 }
  else s

/-- Rejection causes of `RiskManager.can_open_position`, one per early
`return False, reason` branch in source order. -/
inductive RejectReason where
  | killSwitch
  | drawdownDisabled
  | cooldown
  | dailyLossCap
  | maxPositions
  | exposure
  | lowConfidence
  | minOrder
  deriving Repr, DecidableEq

/-- The `(allowed, reason)` pair returned by `can_open_position`, with the
reason string abstracted to its cause. -/
inductive RiskDecision where
  | rejected (r : RejectReason)
  | allowed
  deriving Repr, DecidableEq

/-- Holds exactly on the `(True, "All checks passed")` outcome. -/
def RiskDecision.isAllowed : RiskDecision → Bool
  | .allowed => true
  | .rejected _ => false

/-- Model of `RiskManager.can_open_position(usdt_amount, signal_confidence)`:
the daily reset, then the eight nested checks in source order (lines
54–100 of `risk_manager.py`), each returning on first failure.
`killSwitch` is the `KILL_SWITCH` environment flag read by
`check_kill_switch`; `today`/`now` the current date and instant. -/
def canOpenPosition (cfg : RiskConfig) (killSwitch : Bool) (today : ℕ)
    (now : ℚ) (mgr : RiskMgr) (usdtAmount signalConfidence : ℚ) :
    RiskDecision :=
  let s := resetDailyIfNewDay today mgr.state
  if killSwitch then .rejected .killSwitch
  else if s.liveTradingDisabled then .rejected .drawdownDisabled
  else if (match s.cooldownUntil with
           | some cooldownEnd => decide (now < cooldownEnd)
           | none => false) then .rejected .cooldown
  else if (if s.dailyPnl < 0 then |s.dailyPnl| / mgr.equity * 100 else 0)
          ≥ cfg.dailyLossCapPct then .rejected .dailyLossCap
  else if s.totalPositions ≥ cfg.maxConcurrentPositions then
    .rejected .maxPositions
  else if usdtAmount / mgr.equity * 100 > cfg.maxTotalExposurePct then
    .rejected .exposure
  else if signalConfidence < cfg.minSignalConfidence then
    .rejected .lowConfidence
  else if usdtAmount < cfg.minOrderUsdt then .rejected .minOrder
  else .allowed

/-- First-failing-check semantics: scan an ordered list of (check failed,
rejection cause) pairs; the first failing check produces the rejection,
and the decision is Allowed when none fails. -/
def firstFailing : List (Bool × RejectReason) → RiskDecision
  | [] => .allowed
  | c :: cs => if c.1 then .rejected c.2 else firstFailing cs

/-- The claim, read of `can_open_position`, written from the words of the
spec for comparison against `canOpenPosition`: the eight checks in the
spec order — kill switch, disabled latch, active cooldown, cumulative
realized loss today at least `daily_loss_cap_pct` of equity, concurrent
position cap reached, requested exposure exceeding
`max_total_exposure_pct` of equity, confidence below the minimum, amount
below the minimum order size — with the first failing check producing the
rejection, Allowed iff all eight pass. -/
def canOpenPositionSpec (cfg : RiskConfig) (killSwitch : Bool) (today : ℕ)
    (now : ℚ) (mgr : RiskMgr) (usdtAmount signalConfidence : ℚ) :
    RiskDecision :=
  let s := resetDailyIfNewDay today mgr.state
  let lossToday := if s.dailyPnl < 0 then -s.dailyPnl else 0
  firstFailing
    [(killSwitch, .killSwitch),
     (s.liveTradingDisabled, .drawdownDisabled),
     (s.cooldownUntil.any fun cooldownEnd => decide (now < cooldownEnd),
      .cooldown),
     (decide (lossToday ≥ cfg.dailyLossCapPct / 100 * mgr.equity),
      .dailyLossCap),
     (decide (s.totalPositions ≥ cfg.maxConcurrentPositions), .maxPositions),
     (decide (usdtAmount > cfg.maxTotalExposurePct / 100 * mgr.equity),
      .exposure),
     (decide (signalConfidence < cfg.minSignalConfidence), .lowConfidence),
     (decide (usdtAmount < cfg.minOrderUsdt), .minOrder)]

/-- Model of `RiskManager.calculate_position_size(equity)`: clamp equity to the
capital ceiling, take `risk_per_trade_pct` of it, round to cents; returns
the sized amount together with the updated `self.equity`. -/
def calculatePositionSize (cfg : RiskConfig) (equity : ℚ) : ℚ × ℚ :=
  let e := min equity cfg.capitalLimitUsdt
  (pyRound (e * (cfg.riskPerTradePct / 100)) 2, e)

/-- Model of `RiskManager.on_trade_open`: increment the open-position counter. -/
def onTradeOpen (mgr : RiskMgr) : RiskMgr :=
  { mgr with state := { mgr.state with
      totalPositions := mgr.state.totalPositions + 1 } }

/-- Model of `RiskManager.on_trade_close(pnl_usdt)` (lines 113–147 of
`risk_manager.py`): decrement the position counter (floored at 0),
accumulate daily PnL (rounded to 4 digits), update equity, raise the peak
when exceeded, recompute drawdown-from-peak, track its maximum, run the
consecutive-loss / cooldown logic, and latch `live_trading_disabled` when
the drawdown reaches the cap. `now` is the close instant in minutes. -/
def onTradeClose (cfg : RiskConfig) (now : ℚ) (mgr : RiskMgr) (pnl : ℚ) :
    RiskMgr :=
  let s := mgr.state
  let totalPositions := s.totalPositions - 1
  let dailyPnl := pyRound (s.dailyPnl + pnl) 4
  let equity := mgr.equity + pnl
  let peakEquity := if equity > s.peakEquity then equity else s.peakEquity
  let drawdownPct := (peakEquity - equity) / peakEquity * 100
  let maxDrawdownSeen := max s.maxDrawdownSeen drawdownPct
  let lossState :=
    if pnl < 0 then
      let losses := s.consecutiveLosses + 1
      (losses,
       if losses ≥ cfg.consecutiveLossLimit then
         some (now + cfg.cooldownMinutes)
       else s.cooldownUntil)
    else (0, none)
  let liveTradingDisabled :=
    s.liveTradingDisabled || decide (drawdownPct ≥ cfg.maxDrawdownCapPct)
  { state := { dailyPnl := dailyPnl
               dailyDate := s.dailyDate
               maxDrawdownSeen := maxDrawdownSeen
               peakEquity := peakEquity
               consecutiveLosses := lossState.1
               cooldownUntil := lossState.2
               liveTradingDisabled := liveTradingDisabled
               totalPositions := totalPositions }
    equity := equity }

/-- The drawdown-from-peak percentage `on_trade_close` computes after
applying `pnl` to the equity of the manager. -/
def drawdownPctAfter (mgr : RiskMgr) (pnl : ℚ) : ℚ :=
  let equity := mgr.equity + pnl
  let peak := if equity > mgr.state.peakEquity then equity
              else mgr.state.peakEquity
  (peak - equity) / peak * 100

/-- A sequence of trade closes, each a pair (close instant, realized pnl),
applied left to right. -/
def runCloses (cfg : RiskConfig) (mgr : RiskMgr) :
    List (ℚ × ℚ) → RiskMgr
  | [] => mgr
  | c :: cs => runCloses cfg (onTradeClose cfg c.1 mgr c.2) cs

/-! ## Portfolio ledger (`src/portfolio/portfolio_manager.py`) -/

/-- The stored position dict (`PortfolioManager.open_position`). -/
structure Position where
  symbol : String
  buyPrice : ℚ
  quantity : ℚ
  usdtUsed : ℚ
  openedAt : ℚ
  deriving Repr, DecidableEq

/-- A trade-history entry: the fields of the closed position plus the exit
snapshot appended by `close_position`. -/
structure TradeRecord where
  position : Position
  sellPrice : ℚ
  pnl : ℚ
  reason : String
  closedAt : ℚ
  deriving Repr, DecidableEq

/-- Model of `PortfolioManager.state`: at most one open position and the trade
history list. -/
structure Portfolio where
  position : Option Position
  tradeHistory : List TradeRecord
  deriving Repr, DecidableEq

/-- Model of `PortfolioManager.open_position(symbol, buy_price, quantity,
usdt_used)`: unconditionally store a fresh position dict; the trade
history is not touched and no existing position is checked for. -/
def openPosition (pf : Portfolio) (symbol : String)
    (buyPrice quantity usdtUsed openedAt : ℚ) : Portfolio :=
  let pos : Position :=
    { symbol := symbol, buyPrice := buyPrice, quantity := quantity
      usdtUsed := usdtUsed, openedAt := openedAt }
  { pf with position := some pos }

/-- Model of `PortfolioManager.close_position(sell_price, pnl, reason)`: no-op when
no position is stored; otherwise append the snapshot to the history and
clear the position. -/
def closePosition (pf : Portfolio) (sellPrice pnl : ℚ) (reason : String)
    (closedAt : ℚ) : Portfolio :=
  match pf.position with
  | none => pf
  | some pos =>
      { position := none
        tradeHistory := pf.tradeHistory ++
          [{ position := pos, sellPrice := sellPrice, pnl := pnl
             reason := reason, closedAt := closedAt }] }

/-- The profit-factor value of `get_summary`: a finite ratio or
`float("inf")`. -/
inductive ProfitFactor where
  | fin (q : ℚ)
  | inf
  deriving Repr, DecidableEq

/-- Holds exactly on `float("inf")`. -/
def ProfitFactor.isInf : ProfitFactor → Bool
  | .inf => true
  | .fin _ => false

/-- The dict returned by `get_summary` on a non-empty history. -/
structure Summary where
  totalTrades : ℕ
  wins : ℕ
  losses : ℕ
  winRatePct : ℚ
  totalPnl : ℚ
  profitFactor : ProfitFactor
  avgPnlPerTrade : ℚ
  deriving Repr, DecidableEq

/-- Model of `PortfolioManager.get_summary` (lines 51–70 of
`portfolio_manager.py`), as a function of the pnl values of the history:
`none` models the bare `{"total_trades": 0}` dict of an empty history;
wins are trades with `pnl > 0`, losses those with `pnl <= 0`; the profit
factor is gross profit over gross loss, `inf` when the gross loss is not
positive. -/
def getSummary (history : List ℚ) : Option Summary :=
  if history.isEmpty then none
  else
    let wins := history.filter (fun p => 0 < p)
    let losses := history.filter (fun p => p ≤ 0)
    let totalPnl := history.sum
    let grossProfit := if wins.isEmpty then 0 else wins.sum
    let grossLoss := if losses.isEmpty then 0 else |losses.sum|
    let profitFactor :=
      if 0 < grossLoss then ProfitFactor.fin (pyRound (grossProfit / grossLoss) 2)
      else ProfitFactor.inf
    let winRate :=
      if history.isEmpty then 0
      else (wins.length : ℚ) / (history.length : ℚ) * 100
    some { totalTrades := history.length
           wins := wins.length
           losses := losses.length
           winRatePct := pyRound winRate 1
           totalPnl := pyRound totalPnl 2
           profitFactor := profitFactor
           avgPnlPerTrade := pyRound (totalPnl / (history.length : ℚ)) 2 }

/-! ## Order executor (`src/execution/order_executor.py`)

Exchange step sizes on Binance are powers of ten (`0.01`, `0.0001`, ...),
for which `int(round(-math.log(step_size, 10), 0))` is exactly the
exponent; `_round_qty` is therefore modelled as a function of that decimal
precision `p`, with `stepOfPrecision p = 10 ^ (-p)` recovering the step. -/

/-- The lot-size step corresponding to decimal precision `p`:
`step_size = 10 ^ (-p)`. -/
def stepOfPrecision (p : ℤ) : ℚ := pow10 (-p)

/-- Model of `OrderExecutor._round_qty(qty, step_size)`: Python `round(qty,
precision)` with `precision = int(round(-log10(step_size)))`. -/
def roundQty (qty : ℚ) (precision : ℤ) : ℚ := pyRound qty precision

/-- Model of `OrderExecutor._estimate_cost(usdt_amount)`: two-sided fee plus
slippage estimate, rounded to 4 digits. -/
def estimateCost (feePct slippagePct usdtAmount : ℚ) : ℚ :=
  pyRound (usdtAmount * (feePct / 100) * 2 + usdtAmount * (slippagePct / 100)) 4

/-- The `RISK` / `TRADING` entries consumed by `OrderExecutor`. -/
structure ExecConfig where
  feePct : ℚ
  slippageEstimatePct : ℚ
  maxSpreadPct : ℚ
  stalePriceSeconds : ℚ
  capitalLimitUsdt : ℚ
  deriving Repr, DecidableEq

/-- The market observations an execution call fetches from the client:
top-of-book bid/ask, last price with its age in seconds, and the per-symbol
lot-size decimal precision. -/
structure Market where
  bid : ℚ
  ask : ℚ
  price : ℚ
  priceAgeSeconds : ℚ
  stepPrecision : ℤ
  deriving Repr, DecidableEq

/-- Model of `OrderExecutor.check_spread`: spread as `(ask − bid) / mid × 100`,
paired with the `ok` flag `spread_pct <= max_spread_pct`. -/
def checkSpread (maxSpreadPct bid ask : ℚ) : Bool × ℚ :=
  let spreadPct := (ask - bid) / ((ask + bid) / 2) * 100
  (decide (spreadPct ≤ maxSpreadPct), pyRound spreadPct 4)

/-- The typed errors `execute_buy` / `execute_sell` raise
(`raise ValueError(...)`). -/
inductive ExecError where
  | spreadTooWide
  | stalePrice
  deriving Repr, DecidableEq

/-- The paper-mode buy result dict (the fields the engines consume). -/
structure BuyFill where
  symbol : String
  quantity : ℚ
  filledPrice : ℚ
  usdtUsed : ℚ
  feesEstimated : ℚ
  deriving Repr, DecidableEq

/-- Model of `OrderExecutor.execute_buy(symbol, usdt_amount, paper_mode=True)`
(lines 38–72 of `order_executor.py`): clamp the notional to the capital
ceiling, reject on wide spread, reject on stale price, round the quantity
to the lot step, and return a synthetic fill at the observed price. -/
def executeBuyPaper (cfg : ExecConfig) (m : Market) (symbol : String)
    (usdtAmount : ℚ) : Except ExecError BuyFill :=
  let usdt := min usdtAmount cfg.capitalLimitUsdt
  let spread := checkSpread cfg.maxSpreadPct m.bid m.ask
  if !spread.1 then .error .spreadTooWide
  else if m.priceAgeSeconds > cfg.stalePriceSeconds then .error .stalePrice
  else
    let quantity := roundQty (usdt / m.price) m.stepPrecision
    .ok { symbol := symbol, quantity := quantity, filledPrice := m.price
          usdtUsed := usdt
          feesEstimated := estimateCost cfg.feePct cfg.slippageEstimatePct usdt }

/-- The paper-mode sell result dict (the fields the engines consume). -/
structure SellFill where
  symbol : String
  quantity : ℚ
  filledPrice : ℚ
  usdtReceived : ℚ
  feesEstimated : ℚ
  pnl : ℚ
  deriving Repr, DecidableEq

/-- Model of `OrderExecutor.execute_sell(symbol, quantity, buy_price,
paper_mode=True)` (lines 101–125 of `order_executor.py`): reject on stale
price, round the quantity, compute proceeds, fees and pnl. There is no
spread check and no notional clamp on the sell path. -/
def executeSellPaper (cfg : ExecConfig) (m : Market) (symbol : String)
    (quantity buyPrice : ℚ) : Except ExecError SellFill :=
  if m.priceAgeSeconds > cfg.stalePriceSeconds then .error .stalePrice
  else
    let qty := roundQty quantity m.stepPrecision
    let usdtReceived := qty * m.price
    let fees := estimateCost cfg.feePct cfg.slippageEstimatePct usdtReceived
    .ok { symbol := symbol, quantity := qty, filledPrice := m.price
          usdtReceived := usdtReceived, feesEstimated := fees
          pnl := pyRound ((m.price - buyPrice) * qty - fees) 4 }

/-- An order the exchange holds, keyed by its client order id. -/
structure ExchangeOrder where
  clientOrderId : String
  symbol : String
  quantity : ℚ
  price : ℚ
  deriving Repr, DecidableEq

/-- The exchange-side order store queried by
`BinanceClient.get_order(symbol, client_order_id)`. -/
structure ExchangeState where
  orders : List ExchangeOrder
  deriving Repr, DecidableEq

/-- Model of `BinanceClient.get_order`: look an order up by client order id. -/
def getOrder (ex : ExchangeState) (clientOrderId : String) :
    Option ExchangeOrder :=
  ex.orders.find? (fun o => o.clientOrderId = clientOrderId)

/-- Outcome of a live buy: either the pre-existing order returned by the
duplicate guard, or a new market order placed under the given client
order id. -/
inductive LiveBuyOutcome where
  | existing (o : ExchangeOrder)
  | placed (clientOrderId : String) (quantity price : ℚ)
  deriving Repr, DecidableEq

/-- Holds exactly when a new order was submitted to the exchange. -/
def LiveBuyOutcome.isPlaced : LiveBuyOutcome → Bool
  | .placed _ _ _ => true
  | .existing _ => false

/-- Model of `OrderExecutor.execute_buy(..., paper_mode=False)` (lines 74–99 of
`order_executor.py`): the same gating as paper mode, then the live path —
generate `client_order_id = "bot_buy_" + uuid4().hex[:16]` (modelled by
the `freshToken` parameter, a value freshly drawn per call), query the
exchange for an existing order under that id, return it if found, and
otherwise place a new market buy under that id. -/
def executeBuyLive (cfg : ExecConfig) (m : Market) (ex : ExchangeState)
    (freshToken : String) (usdtAmount : ℚ) :
    Except ExecError LiveBuyOutcome :=
  let usdt := min usdtAmount cfg.capitalLimitUsdt
  let spread := checkSpread cfg.maxSpreadPct m.bid m.ask
  if !spread.1 then .error .spreadTooWide
  else if m.priceAgeSeconds > cfg.stalePriceSeconds then .error .stalePrice
  else
    let quantity := roundQty (usdt / m.price) m.stepPrecision
    match getOrder ex freshToken with
    | some o => .ok (.existing o)
    | none => .ok (.placed freshToken quantity m.price)

/-! ## Tick exit reasons (`paper_engine.py` / `live_runner.py`) -/

/-- The four exit reasons a tick can assign to an open position. -/
inductive ExitReason where
  | stopLoss
  | takeProfit
  | strategySignal
  | maxHoldTime
  deriving Repr, DecidableEq

/-- Model of `PaperEngine._tick` exit-reason cascade (lines 139–150 of
`paper_engine.py`): the low of the last closed candle against the stop-loss,
else its high against the take-profit, else a SELL signal, else the
holding-time cap; `none` keeps the position. -/
def paperExitReason (lo hi sl tp : ℚ) (sellSignal : Bool)
    (heldHours maxHoldingHours : ℚ) : Option ExitReason :=
  if lo ≤ sl then some .stopLoss
  else if hi ≥ tp then some .takeProfit
  else if sellSignal then some .strategySignal
  else if heldHours ≥ maxHoldingHours then some .maxHoldTime
  else none

/-- Model of `LiveRunner._tick` exit-reason cascade (lines 115–123 of
`live_runner.py`): same priority order, but against the single current
price instead of the candle low/high. -/
def liveExitReason (price sl tp : ℚ) (sellSignal : Bool)
    (heldHours maxHoldingHours : ℚ) : Option ExitReason :=
  if price ≤ sl then some .stopLoss
  else if price ≥ tp then some .takeProfit
  else if sellSignal then some .strategySignal
  else if heldHours ≥ maxHoldingHours then some .maxHoldTime
  else none

/-- Model of `RiskManager.get_stop_loss(buy_price)`. -/
def getStopLoss (stopLossPct buyPrice : ℚ) : ℚ :=
  pyRound (buyPrice * (1 - stopLossPct / 100)) 2

/-- Model of `RiskManager.get_take_profit(buy_price)`. -/
def getTakeProfit (takeProfitPct buyPrice : ℚ) : ℚ :=
  pyRound (buyPrice * (1 + takeProfitPct / 100)) 2

/-! ## Trading intervals (`paper_engine.py` / `live_runner.py`) -/

/-- Model of `_TIMEFRAME_SECONDS` of `paper_engine.py`: the canonical
Binance-supported intervals. -/
def timeframeSecondsTable : List (String × ℕ) :=
  [("1m", 60), ("3m", 180), ("5m", 300), ("15m", 900), ("30m", 1800),
   ("1h", 3600), ("2h", 7200), ("4h", 14400), ("6h", 21600),
   ("8h", 28800), ("12h", 43200), ("1d", 86400), ("3d", 259200),
   ("1w", 604800)]

/-- Model of `paper_engine._timeframe_to_seconds(tf)`: raise `ValueError` on an
unsupported timeframe, else return the seconds. The `PaperEngine`
constructor calls it, and `PaperEngine.run` treats a `ValueError` as a
fatal config error and breaks the loop. -/
def timeframeToSeconds (tf : String) : Except String ℕ :=
  match timeframeSecondsTable.lookup tf with
  | some s => .ok s
  | none => .error "Unsupported timeframe"

/-- The `mapping` dict inside `LiveRunner._interval_seconds`. -/
def liveIntervalTable : List (String × ℕ) :=
  [("1m", 60), ("5m", 300), ("15m", 900), ("1h", 3600), ("4h", 14400),
   ("1d", 86400)]

/-- Model of `LiveRunner._interval_seconds` (lines 148–150 of `live_runner.py`):
`mapping.get(timeframe, 3600)` — an unrecognized timeframe silently
yields the default 3600-second poll interval. -/
def liveIntervalSeconds (tf : String) : ℕ :=
  (liveIntervalTable.lookup tf).getD 3600

/-! ## Shared lemmas -/

theorem pow10_pos (p : ℤ) : 0 < pow10 p := by
  rw [pow10]
  split <;> positivity

/-- The daily reset never touches the disabled latch. -/
theorem resetDaily_disabled (today : ℕ) (s : RiskState) :
    (resetDailyIfNewDay today s).liveTradingDisabled =
      s.liveTradingDisabled := by
  rw [resetDailyIfNewDay]
  split <;> rfl

/-- One close keeps the latch set. -/
theorem onTradeClose_disabled_mono (cfg : RiskConfig) (now : ℚ)
    (mgr : RiskMgr) (pnl : ℚ)
    (h : mgr.state.liveTradingDisabled = true) :
    (onTradeClose cfg now mgr pnl).state.liveTradingDisabled = true := by
  simp [onTradeClose, h]

/-- Any sequence of closes keeps the latch set. -/
theorem runCloses_disabled_mono (cfg : RiskConfig) (cs : List (ℚ × ℚ)) :
    ∀ mgr : RiskMgr, mgr.state.liveTradingDisabled = true →
      (runCloses cfg mgr cs).state.liveTradingDisabled = true := by
  induction cs with
  | nil => intro mgr h; exact h
  | cons c cs ih =>
      intro mgr h
      exact ih _ (onTradeClose_disabled_mono cfg c.1 mgr c.2 h)

/-- With the latch set, `can_open_position` rejects (at the kill-switch
check or at the latch check, whichever comes first). -/
theorem canOpen_rejects_of_disabled (cfg : RiskConfig) (ks : Bool)
    (today : ℕ) (now : ℚ) (mgr : RiskMgr) (usdt conf : ℚ)
    (h : mgr.state.liveTradingDisabled = true) :
    (canOpenPosition cfg ks today now mgr usdt conf).isAllowed = false := by
  rw [canOpenPosition]
  have hd := resetDaily_disabled today mgr.state
  cases ks with
  | true => simp [RiskDecision.isAllowed]
  | false => simp [hd, h, RiskDecision.isAllowed]

/-! ## Claim theorems -/

/-- C2: starting from any risk state, the `live_trading_disabled` flag is
monotone — once true it stays true across any further sequence of
`on_trade_close` calls, so over any run it transitions false→true at most
once and is never reset by the risk manager; after any single close the
flag equals the old flag OR-ed with "drawdown-from-peak reached
`max_drawdown_cap_pct`" (so it is set exactly when the drawdown cap is
reached); and while the flag is true every `can_open_position` call
returns a rejection. -/
theorem liveTradingDisabled_latch (cfg : RiskConfig) (mgr mgr' : RiskMgr)
    (extra : List (ℚ × ℚ)) (ks : Bool) (today : ℕ) (now usdt conf t p : ℚ)
    (hdis : mgr.state.liveTradingDisabled = true) :
    (runCloses cfg mgr extra).state.liveTradingDisabled = true
    ∧ (canOpenPosition cfg ks today now mgr usdt conf).isAllowed = false
    ∧ (onTradeClose cfg t mgr' p).state.liveTradingDisabled
        = (mgr'.state.liveTradingDisabled
            || decide (drawdownPctAfter mgr' p ≥ cfg.maxDrawdownCapPct)) := by
  refine ⟨runCloses_disabled_mono cfg extra mgr hdis,
    canOpen_rejects_of_disabled cfg ks today now mgr usdt conf hdis, ?_⟩
  simp [onTradeClose, drawdownPctAfter]

/-- C2 witness: a concrete disabled manager stays disabled through a
further close and is rejected by the gate. -/
theorem liveTradingDisabled_latch_witness :
    (⟨⟨0, 0, 0, 100, 0, none, true, 0⟩, 100⟩ : RiskMgr).state.liveTradingDisabled = true
    ∧ ((runCloses ⟨15, 50, 1, 2, 8, 3, 120, 11/20, 100, 5⟩
          ⟨⟨0, 0, 0, 100, 0, none, true, 0⟩, 100⟩ [(0, -1)]).state.liveTradingDisabled = true
        ∧ (canOpenPosition ⟨15, 50, 1, 2, 8, 3, 120, 11/20, 100, 5⟩ false 0 0
            ⟨⟨0, 0, 0, 100, 0, none, true, 0⟩, 100⟩ 15 (6/10)).isAllowed = false
        ∧ (onTradeClose ⟨15, 50, 1, 2, 8, 3, 120, 11/20, 100, 5⟩ 0
            ⟨⟨0, 0, 0, 100, 0, none, false, 1⟩, 100⟩ (-1)).state.liveTradingDisabled
            = ((⟨⟨0, 0, 0, 100, 0, none, false, 1⟩, 100⟩ : RiskMgr).state.liveTradingDisabled
                || decide (drawdownPctAfter ⟨⟨0, 0, 0, 100, 0, none, false, 1⟩, 100⟩ (-1)
                    ≥ (⟨15, 50, 1, 2, 8, 3, 120, 11/20, 100, 5⟩ : RiskConfig).maxDrawdownCapPct))) :=
  ⟨rfl, liveTradingDisabled_latch ⟨15, 50, 1, 2, 8, 3, 120, 11/20, 100, 5⟩
    ⟨⟨0, 0, 0, 100, 0, none, true, 0⟩, 100⟩
    ⟨⟨0, 0, 0, 100, 0, none, false, 1⟩, 100⟩
    [(0, -1)] false 0 0 15 (6/10) 0 (-1) rfl⟩

/-- C6: with `consecutive_loss_limit = 3`, three consecutive losing closes
(each `pnl < 0`) leave `cooldown_until` at exactly `cooldown_minutes`
after the third losing close — from any starting state, since the third
loss always drives the counter to at least 3 — and any non-losing close
(`pnl ≥ 0`) resets `consecutive_losses` to 0 and clears any active
cooldown. -/
theorem threeLosses_cooldown (cfg : RiskConfig)
    (hlimit : cfg.consecutiveLossLimit = 3) (mgr mgr' : RiskMgr)
    (t1 t2 t3 t' p1 p2 p3 p' : ℚ)
    (h1 : p1 < 0) (h2 : p2 < 0) (h3 : p3 < 0) (h' : 0 ≤ p') :
    (onTradeClose cfg t3 (onTradeClose cfg t2 (onTradeClose cfg t1 mgr p1) p2)
        p3).state.cooldownUntil = some (t3 + cfg.cooldownMinutes)
    ∧ (onTradeClose cfg t' mgr' p').state.consecutiveLosses = 0
    ∧ (onTradeClose cfg t' mgr' p').state.cooldownUntil = none := by
  have hc1 : (onTradeClose cfg t1 mgr p1).state.consecutiveLosses
      = mgr.state.consecutiveLosses + 1 := by
    simp [onTradeClose, h1]
  have hc2 : (onTradeClose cfg t2 (onTradeClose cfg t1 mgr p1) p2).state.consecutiveLosses
      = mgr.state.consecutiveLosses + 2 := by
    simp [onTradeClose, h1, h2]
  refine ⟨?_, ?_, ?_⟩
  · rw [onTradeClose]
    simp only [h3, if_pos, hc2, hlimit]
    rw [if_pos (show mgr.state.consecutiveLosses + 2 + 1 ≥ 3 by omega)]
  · simp [onTradeClose, not_lt.mpr h']
  · simp [onTradeClose, not_lt.mpr h']

/-- C6 witness: from a fresh state, three −$1 closes at minutes 0, 1, 2
set the cooldown to minute 2 + 120, and a winning close resets. -/
theorem threeLosses_cooldown_witness :
    (⟨15, 50, 1, 2, 8, 3, 120, 11/20, 100, 5⟩ : RiskConfig).consecutiveLossLimit = 3
    ∧ (-1 : ℚ) < 0 ∧ (0 : ℚ) ≤ 1
    ∧ ((onTradeClose ⟨15, 50, 1, 2, 8, 3, 120, 11/20, 100, 5⟩ 2
          (onTradeClose ⟨15, 50, 1, 2, 8, 3, 120, 11/20, 100, 5⟩ 1
            (onTradeClose ⟨15, 50, 1, 2, 8, 3, 120, 11/20, 100, 5⟩ 0
              ⟨⟨0, 0, 0, 100, 0, none, false, 1⟩, 100⟩ (-1)) (-1))
          (-1)).state.cooldownUntil
        = some (2 + (⟨15, 50, 1, 2, 8, 3, 120, 11/20, 100, 5⟩ : RiskConfig).cooldownMinutes)
      ∧ (onTradeClose ⟨15, 50, 1, 2, 8, 3, 120, 11/20, 100, 5⟩ 3
          ⟨⟨0, 0, 0, 100, 2, some 500, false, 1⟩, 100⟩ 1).state.consecutiveLosses = 0
      ∧ (onTradeClose ⟨15, 50, 1, 2, 8, 3, 120, 11/20, 100, 5⟩ 3
          ⟨⟨0, 0, 0, 100, 2, some 500, false, 1⟩, 100⟩ 1).state.cooldownUntil = none) :=
  ⟨rfl, by norm_num, by norm_num,
   threeLosses_cooldown ⟨15, 50, 1, 2, 8, 3, 120, 11/20, 100, 5⟩ rfl
     ⟨⟨0, 0, 0, 100, 0, none, false, 1⟩, 100⟩
     ⟨⟨0, 0, 0, 100, 2, some 500, false, 1⟩, 100⟩
     0 1 2 3 (-1) (-1) (-1) 1
     (by norm_num) (by norm_num) (by norm_num) (by norm_num)⟩

/-- C7: with a position open, the per-tick exit reason follows the priority
Stop Loss > Take Profit > Signal Exit > Max Holding Time with the first
matching condition winning: in the paper engine the reason is Stop Loss
exactly when the candle low pierces the stop level — in particular even
when the candle high simultaneously pierces the take-profit — and
each later reason requires every earlier condition to have failed; the
live runner applies the same cascade to the current price. -/
theorem exitReason_priority (lo hi sl tp price : ℚ) (sell : Bool)
    (held maxH : ℚ) :
    (paperExitReason lo hi sl tp sell held maxH = some .stopLoss ↔ lo ≤ sl)
    ∧ (paperExitReason lo hi sl tp sell held maxH = some .takeProfit
        ↔ (sl < lo ∧ tp ≤ hi))
    ∧ (paperExitReason lo hi sl tp sell held maxH = some .strategySignal
        ↔ (sl < lo ∧ hi < tp ∧ sell = true))
    ∧ (paperExitReason lo hi sl tp sell held maxH = some .maxHoldTime
        ↔ (sl < lo ∧ hi < tp ∧ sell = false ∧ maxH ≤ held))
    ∧ (liveExitReason price sl tp sell held maxH = some .stopLoss
        ↔ price ≤ sl) := by
  unfold paperExitReason liveExitReason
  refine ⟨?_, ?_, ?_, ?_, ?_⟩ <;>
    split_ifs <;>
    simp_all

/-- C8 counterexample: "7m" is outside the supported interval set, and the
paper-engine `_timeframe_to_seconds` raises a fatal `ValueError` on it,
but `LiveRunner._interval_seconds` does not stop: it substitutes the
3600-second default (`mapping.get(tf, 3600)`) and the live loop keeps
ticking on that substituted interval. This refutes the claim that every
mode running ticks stops on an unsupported configured interval. -/
theorem liveInterval_substitutes_default :
    timeframeSecondsTable.lookup "7m" = none
    ∧ timeframeToSeconds "7m" = Except.error "Unsupported timeframe"
    ∧ liveIntervalSeconds "7m" = 3600 :=
  ⟨rfl, rfl, rfl⟩

/-- C8 amended: an unsupported trading interval is fatal only in paper
mode — `_timeframe_to_seconds` raises `ValueError`, which `PaperEngine`
treats as a fatal config error — while the live-runner function
`_interval_seconds` silently substitutes the 3600-second default for any
timeframe outside its mapping and the live loop continues. -/
theorem unsupportedInterval_paper_fatal_live_default (tf : String)
    (hpaper : timeframeSecondsTable.lookup tf = none)
    (hlive : liveIntervalTable.lookup tf = none) :
    timeframeToSeconds tf = Except.error "Unsupported timeframe"
    ∧ liveIntervalSeconds tf = 3600 := by
  rw [timeframeToSeconds, hpaper, liveIntervalSeconds, hlive]
  exact ⟨rfl, rfl⟩

/-- C8 witness: the amended statement applied at the unsupported
timeframe "7m". -/
theorem unsupportedInterval_witness :
    timeframeSecondsTable.lookup "7m" = none
    ∧ liveIntervalTable.lookup "7m" = none
    ∧ (timeframeToSeconds "7m" = Except.error "Unsupported timeframe"
        ∧ liveIntervalSeconds "7m" = 3600) :=
  ⟨rfl, rfl, unsupportedInterval_paper_fatal_live_default "7m" rfl rfl⟩

/-- C10: when a position already exists, `open_position` succeeds and
silently replaces it — the stored position becomes the new one, the old
position is discarded without being appended to the trade history, no
error is raised (the function is total and never inspects the existing
position), and the trade history is unchanged. -/
theorem openPosition_silently_replaces (pf : Portfolio) (prev : Position)
    (hprev : pf.position = some prev) (symbol : String)
    (buyPrice quantity usdtUsed openedAt : ℚ) :
    (openPosition pf symbol buyPrice quantity usdtUsed openedAt).position
      = some { symbol := symbol, buyPrice := buyPrice, quantity := quantity
               usdtUsed := usdtUsed, openedAt := openedAt }
    ∧ (openPosition pf symbol buyPrice quantity usdtUsed openedAt).tradeHistory
      = pf.tradeHistory := by
  exact ⟨rfl, rfl⟩

/-- C10 witness: replacing an existing concrete position leaves the
history untouched. -/
theorem openPosition_silently_replaces_witness :
    (⟨some ⟨"ETHUSDT", 2000, 1/100, 20, 0⟩, []⟩ : Portfolio).position
      = some ⟨"ETHUSDT", 2000, 1/100, 20, 0⟩
    ∧ ((openPosition ⟨some ⟨"ETHUSDT", 2000, 1/100, 20, 0⟩, []⟩ "ETHUSDT" 2100 (2/100) 42 7).position
        = some { symbol := "ETHUSDT", buyPrice := 2100, quantity := 2/100
                 usdtUsed := 42, openedAt := 7 }
      ∧ (openPosition ⟨some ⟨"ETHUSDT", 2000, 1/100, 20, 0⟩, []⟩ "ETHUSDT" 2100 (2/100) 42 7).tradeHistory
        = (⟨some ⟨"ETHUSDT", 2000, 1/100, 20, 0⟩, []⟩ : Portfolio).tradeHistory) :=
  ⟨rfl, openPosition_silently_replaces ⟨some ⟨"ETHUSDT", 2000, 1/100, 20, 0⟩, []⟩
    ⟨"ETHUSDT", 2000, 1/100, 20, 0⟩ rfl "ETHUSDT" 2100 (2/100) 42 7⟩

/-- With positive equity, "x as a percentage of equity is at least cap"
agrees with "x is at least cap percent of equity". -/
theorem pct_ge_iff (e x cap : ℚ) (he : 0 < e) :
    cap ≤ x / e * 100 ↔ cap / 100 * e ≤ x := by
  rw [div_mul_eq_mul_div, le_div_iff he]
  constructor <;> intro h <;> linarith

/-- With positive equity, "x as a percentage of equity exceeds cap"
agrees with "x exceeds cap percent of equity". -/
theorem pct_gt_iff (e x cap : ℚ) (he : 0 < e) :
    cap < x / e * 100 ↔ cap / 100 * e < x := by
  rw [div_mul_eq_mul_div, lt_div_iff he]
  constructor <;> intro h <;> linarith

/-- C4: with positive equity, `can_open_position` is exactly the spec list of
eight ordered checks with first-failing-check-wins semantics — kill
switch, disabled latch, active cooldown, daily realized loss at least
`daily_loss_cap_pct` of equity, concurrent-position cap, requested
exposure exceeding `max_total_exposure_pct` of equity, confidence below
`min_signal_confidence`, amount below the minimum order size — and
returns Allowed iff all eight pass. -/
theorem canOpen_matches_spec_order (cfg : RiskConfig) (ks : Bool)
    (today : ℕ) (now : ℚ) (mgr : RiskMgr) (usdt conf : ℚ)
    (he : 0 < mgr.equity) :
    canOpenPosition cfg ks today now mgr usdt conf
      = canOpenPositionSpec cfg ks today now mgr usdt conf := by
  rw [canOpenPosition, canOpenPositionSpec]
  set s := resetDailyIfNewDay today mgr.state with hs
  simp only [firstFailing]
  have hcool : (match s.cooldownUntil with
      | some cooldownEnd => decide (now < cooldownEnd)
      | none => false)
      = (s.cooldownUntil.any fun cooldownEnd => decide (now < cooldownEnd)) := by
    cases s.cooldownUntil <;> rfl
  have hloss : ((if s.dailyPnl < 0 then |s.dailyPnl| / mgr.equity * 100 else 0)
        ≥ cfg.dailyLossCapPct)
      ↔ ((if s.dailyPnl < 0 then -s.dailyPnl else 0)
        ≥ cfg.dailyLossCapPct / 100 * mgr.equity) := by
    by_cases hd : s.dailyPnl < 0
    · rw [if_pos hd, if_pos hd, abs_of_neg hd, ge_iff_le, ge_iff_le]
      exact pct_ge_iff mgr.equity (-s.dailyPnl) cfg.dailyLossCapPct he
    · rw [if_neg hd, if_neg hd, ge_iff_le, ge_iff_le]
      constructor <;> intro h <;> nlinarith
  have hexpo : (cfg.maxTotalExposurePct < usdt / mgr.equity * 100)
      ↔ (cfg.maxTotalExposurePct / 100 * mgr.equity < usdt) :=
    pct_gt_iff mgr.equity usdt cfg.maxTotalExposurePct he
  rw [hcool]
  cases ks with
  | true => rfl
  | false =>
      simp only [decide_eq_true_eq, hloss, hexpo]

/-- C4 witness: a concrete all-checks-pass state on which the decision
function and the spec first-failing-check scan agree (both Allowed). -/
theorem canOpen_matches_spec_order_witness :
    (0 : ℚ) < (⟨⟨0, 0, 0, 100, 0, none, false, 0⟩, 100⟩ : RiskMgr).equity
    ∧ canOpenPosition ⟨15, 50, 1, 2, 8, 3, 120, 11/20, 100, 5⟩ false 0 0
        ⟨⟨0, 0, 0, 100, 0, none, false, 0⟩, 100⟩ 15 (6/10)
      = canOpenPositionSpec ⟨15, 50, 1, 2, 8, 3, 120, 11/20, 100, 5⟩ false 0 0
        ⟨⟨0, 0, 0, 100, 0, none, false, 0⟩, 100⟩ 15 (6/10) :=
  ⟨by norm_num,
   canOpen_matches_spec_order ⟨15, 50, 1, 2, 8, 3, 120, 11/20, 100, 5⟩ false 0 0
     ⟨⟨0, 0, 0, 100, 0, none, false, 0⟩, 100⟩ 15 (6/10) (by norm_num)⟩

/-- Round-half-to-even lands within half a unit of its argument. -/
theorem abs_roundHalfEven_sub_le (x : ℚ) :
    |(roundHalfEven x : ℚ) - x| ≤ 1/2 := by
  have h1 : (⌊x⌋ : ℚ) ≤ x := Int.floor_le x
  have h2 : x < ⌊x⌋ + 1 := Int.lt_floor_add_one x
  simp only [roundHalfEven]
  split_ifs <;> push_cast <;> rw [abs_le] <;> constructor <;> linarith

/-- Negating the exponent of `pow10` inverts the value. -/
theorem pow10_neg (p : ℤ) : pow10 (-p) = 1 / pow10 p := by
  rcases lt_trichotomy p 0 with h | rfl | h
  · rw [pow10, pow10, if_pos (by omega), if_neg (by omega), one_div_one_div]
  · simp [pow10]
  · rw [pow10, pow10, if_neg (by omega), if_pos (by omega), neg_neg]

/-- Python rounding at precision `p` moves a value by at most half of
`10 ^ (-p)`. -/
theorem abs_pyRound_sub_le (x : ℚ) (p : ℤ) :
    |pyRound x p - x| ≤ 1 / (2 * pow10 p) := by
  have hp := pow10_pos p
  have key : pyRound x p - x
      = ((roundHalfEven (x * pow10 p) : ℚ) - x * pow10 p) / pow10 p := by
    rw [pyRound]
    field_simp
    ring
  rw [key, abs_div, abs_of_pos hp]
  have hb := abs_roundHalfEven_sub_le (x * pow10 p)
  calc |(roundHalfEven (x * pow10 p) : ℚ) - x * pow10 p| / pow10 p
      ≤ (1/2) / pow10 p := by gcongr
    _ = 1 / (2 * pow10 p) := by rw [div_div]

/-- C3 counterexample: the claim "rounded quantity × price ≤ requested
notional" fails. With step `0.01` (precision 2), price `1` and notional
`0.016`, the raw quantity `0.016` is rounded half-to-even UP to `0.02`
(Python `round`, not floor-to-step), so rounded × price = `0.02 >
0.016`. -/
theorem roundQty_rounds_up_counterexample :
    stepOfPrecision 2 = 1/100
    ∧ ¬ (roundQty ((16/1000 : ℚ) / 1) 2 * 1 ≤ 16/1000) := by
  constructor
  · rw [stepOfPrecision, pow10, if_neg (by omega)]
    norm_num [show ((2:ℤ)).toNat = 2 from rfl]
  · have hp : pow10 2 = 100 := by
      rw [pow10, if_pos (by omega)]
      norm_num [show ((2:ℤ)).toNat = 2 from rfl]
    have harg : ((16/1000 : ℚ) / 1) * pow10 2 = 8/5 := by
      rw [hp]; norm_num
    have hfl : ⌊(8/5 : ℚ)⌋ = 1 := by
      rw [Int.floor_eq_iff] <;> norm_num
    have : roundQty ((16/1000 : ℚ) / 1) 2 = 2/100 := by
      rw [roundQty, pyRound, harg, hp, roundHalfEven]
      simp only [hfl]
      norm_num
    rw [this]
    norm_num

/-- C3 amended: `_round_qty` rounds half-to-even at precision
`-log10(step_size)`, not down, so the rounded quantity can exceed the raw
quantity by up to half a step; consequently rounded quantity × price is
bounded by the requested notional plus half a step worth of price
(`qty × price + price × step / 2`), not by the notional itself. -/
theorem roundQty_mul_price_bound (qty price : ℚ) (p : ℤ)
    (hprice : 0 ≤ price) :
    roundQty qty p * price ≤ qty * price + price * stepOfPrecision p / 2 := by
  have hb := (abs_le.mp (abs_pyRound_sub_le qty p)).2
  have hmul : (pyRound qty p - qty) * price ≤ (1 / (2 * pow10 p)) * price :=
    mul_le_mul_of_nonneg_right hb hprice
  have hstep : stepOfPrecision p = 1 / pow10 p := pow10_neg p
  have h2 : (1 : ℚ) / (2 * pow10 p) = 1 / pow10 p / 2 := by
    rw [div_div, mul_comm]
  rw [roundQty, hstep]
  rw [h2] at hmul
  linarith [hmul]

/-- C3 witness: the amended bound applied at precision 2, price 1, raw
quantity 0.016. -/
theorem roundQty_mul_price_bound_witness :
    (0 : ℚ) ≤ 1
    ∧ roundQty (16/1000 : ℚ) 2 * 1
        ≤ (16/1000 : ℚ) * 1 + 1 * stepOfPrecision 2 / 2 :=
  ⟨by norm_num, roundQty_mul_price_bound (16/1000) 1 2 (by norm_num)⟩

/-- A list of non-positive rationals has non-positive sum. -/
theorem sum_nonpos_of_forall_nonpos :
    ∀ l : List ℚ, (∀ x ∈ l, x ≤ 0) → l.sum ≤ 0 := by
  intro l
  induction l with
  | nil => intro _; simp
  | cons a l ih =>
      intro hall
      have ha := hall a (by simp)
      have hl := ih fun x hx => hall x (by simp [hx])
      simp only [List.sum_cons]
      linarith

/-- A list of non-positive rationals sums to a negative value iff it has
a negative element. -/
theorem sum_neg_iff_exists_neg :
    ∀ l : List ℚ, (∀ x ∈ l, x ≤ 0) → (l.sum < 0 ↔ ∃ x ∈ l, x < 0) := by
  intro l
  induction l with
  | nil => intro _; simp
  | cons a l ih =>
      intro hall
      have ha := hall a (by simp)
      have hl : ∀ x ∈ l, x ≤ 0 := fun x hx => hall x (by simp [hx])
      have hsum := sum_nonpos_of_forall_nonpos l hl
      simp only [List.sum_cons, List.mem_cons]
      constructor
      · intro hneg
        by_cases han : a < 0
        · exact ⟨a, Or.inl rfl, han⟩
        · have : l.sum < 0 := by
            have : a = 0 := le_antisymm ha (not_lt.mp han)
            linarith
          obtain ⟨x, hx, hxneg⟩ := (ih hl).mp this
          exact ⟨x, Or.inr hx, hxneg⟩
      · rintro ⟨x, hx | hx, hxneg⟩
        · subst hx; linarith
        · have : l.sum < 0 := (ih hl).mpr ⟨x, hx, hxneg⟩
          linarith

/-- The gross loss of `get_summary` is positive iff some trade has
strictly negative pnl. -/
theorem grossLoss_pos_iff (h : List ℚ) :
    (0 < if (h.filter (fun p => p ≤ 0)).isEmpty then (0 : ℚ)
         else |(h.filter (fun p => p ≤ 0)).sum|)
      ↔ (h.filter (fun p => p < 0)).isEmpty = false := by
  have hall : ∀ x ∈ h.filter (fun p => p ≤ 0), x ≤ 0 := by
    intro x hx
    have := List.mem_filter.mp hx
    exact of_decide_eq_true this.2
  have hmem : (∃ x ∈ h.filter (fun p => p ≤ 0), x < 0) ↔ ∃ x ∈ h, x < 0 := by
    constructor
    · rintro ⟨x, hx, hneg⟩
      exact ⟨x, (List.mem_filter.mp hx).1, hneg⟩
    · rintro ⟨x, hx, hneg⟩
      exact ⟨x, List.mem_filter.mpr ⟨hx, decide_eq_true (le_of_lt hneg)⟩, hneg⟩
  have hlt : (h.filter (fun p => p < 0)).isEmpty = false ↔ ∃ x ∈ h, x < 0 := by
    rw [List.isEmpty_eq_false_iff_exists_mem]
    constructor
    · rintro ⟨x, hx⟩
      have := List.mem_filter.mp hx
      exact ⟨x, this.1, of_decide_eq_true this.2⟩
    · rintro ⟨x, hx, hneg⟩
      exact ⟨x, List.mem_filter.mpr ⟨hx, decide_eq_true hneg⟩⟩
  by_cases he : (h.filter (fun p => p ≤ 0)).isEmpty
  · rw [if_pos he]
    have hnone : ¬ ∃ x ∈ h, x < 0 := by
      rintro ⟨x, hx, hneg⟩
      rw [List.isEmpty_iff] at he
      have : x ∈ h.filter (fun p => p ≤ 0) :=
        List.mem_filter.mpr ⟨hx, decide_eq_true (le_of_lt hneg)⟩
      simp [he] at this
    simp only [lt_self_iff_false, false_iff]
    rw [hlt]
    simpa using hnone
  · rw [if_neg he]
    have hsum := sum_nonpos_of_forall_nonpos _ hall
    rw [abs_pos]
    constructor
    · intro hne
      have : (h.filter (fun p => p ≤ 0)).sum < 0 := lt_of_le_of_ne hsum hne
      exact hlt.mpr (hmem.mp ((sum_neg_iff_exists_neg _ hall).mp this))
    · intro hflt
      have : (h.filter (fun p => p ≤ 0)).sum < 0 :=
        (sum_neg_iff_exists_neg _ hall).mpr (hmem.mpr (hlt.mp hflt))
      exact ne_of_lt this

/-- C9 counterexample: on the one-trade history `[0]` the profit factor is
`+infinity` although there is no winning trade (and the zero-pnl trade is
counted among the losses), refuting "profit factor is +infinity exactly
when there are no losing trades and at least one winning trade". -/
theorem profitFactor_inf_without_win :
    (getSummary [0]).map
        (fun s => (s.profitFactor.isInf, s.wins, s.losses, s.totalTrades))
      = some (true, 0, 1, 1) := by
  simp only [getSummary, List.filter]
  norm_num [ProfitFactor.isInf]

/-- C9 amended: `get_summary` classifies a win exactly as `pnl > 0`
(confirmed), but the profit factor is `+infinity` exactly when the
(non-empty) history contains no trade with `pnl < 0` — whether or not any
trade won; a zero-pnl trade is counted as a loss yet contributes nothing
to gross loss, so "at least one winning trade" is not required. -/
theorem getSummary_profitFactor_inf_iff (h : List ℚ) (hne : h ≠ []) :
    ((getSummary h).map (fun s => s.profitFactor.isInf)
        = some (h.filter (fun p => p < 0)).isEmpty)
    ∧ ((getSummary h).map (fun s => s.wins)
        = some (h.filter (fun p => 0 < p)).length) := by
  have hne' : h.isEmpty = false := by
    rw [List.isEmpty_eq_false_iff_exists_mem]
    cases h with
    | nil => exact absurd rfl hne
    | cons a l => exact ⟨a, by simp⟩
  rw [getSummary, if_neg (by rw [hne']; exact Bool.false_ne_true)]
  refine ⟨?_, rfl⟩
  simp only [Option.map_some]
  by_cases hG : (0 : ℚ) < (if (h.filter (fun p => p ≤ 0)).isEmpty then 0
      else |(h.filter (fun p => p ≤ 0)).sum|)
  · rw [if_pos hG]
    have hfe := (grossLoss_pos_iff h).mp hG
    rw [hfe]
    rfl
  · rw [if_neg hG]
    have hnf : ¬ (h.filter (fun p => p < 0)).isEmpty = false :=
      fun hc => hG ((grossLoss_pos_iff h).mpr hc)
    have heq : (h.filter (fun p => p < 0)).isEmpty = true := by
      cases hb : (h.filter (fun p => p < 0)).isEmpty with
      | false => exact absurd hb hnf
      | true => rfl
    rw [heq]
    rfl

/-- C9 witness: the amended statement applied to the history `[3, 0]`:
profit factor is reported infinite (no strictly-losing trade) with
exactly one win. -/
theorem getSummary_profitFactor_inf_iff_witness :
    ([3, 0] : List ℚ) ≠ []
    ∧ (((getSummary [3, 0]).map (fun s => s.profitFactor.isInf)
          = some (([3, 0] : List ℚ).filter (fun p => p < 0)).isEmpty)
        ∧ ((getSummary [3, 0]).map (fun s => s.wins)
          = some (([3, 0] : List ℚ).filter (fun p => 0 < p)).length)) :=
  ⟨by simp, getSummary_profitFactor_inf_iff [3, 0] (by simp)⟩

/-- C5 counterexample: with the book `bid = 100, ask = 102` the spread is
`2/101 × 100 ≈ 1.98% > max_spread_pct = 0.5%`, so `execute_buy` rejects
with the spread error — but `execute_sell` on the same market succeeds:
the sell path has no spread check, refuting "the pre-trade gating steps
are applied by both execute_buy and execute_sell". -/
theorem executeSell_skips_spread_check :
    executeBuyPaper ⟨1/10, 1/20, 1/2, 30, 100⟩ ⟨100, 102, 101, 0, 2⟩
        "ETHUSDT" 15 = Except.error ExecError.spreadTooWide
    ∧ (executeSellPaper ⟨1/10, 1/20, 1/2, 30, 100⟩ ⟨100, 102, 101, 0, 2⟩
        "ETHUSDT" (3/20) 100).isOk = true := by
  constructor
  · have hs : (checkSpread (1/2 : ℚ) 100 102).1 = false := by
      simp only [checkSpread]
      rw [decide_eq_false_iff_not]
      norm_num
    simp only [executeBuyPaper, hs, Bool.not_false, if_true]
  · rfl

/-- C5 amended: the clamp, spread and freshness gates are applied by
`execute_buy` (paper and live alike): it rejects on a wide spread before
anything else, rejects with the stale-price error when the spread passes
but the price is older than `stale_price_seconds` (market `m3`), and its
committed notional is always the clamped `min(requested, capital_limit)`.
`execute_sell`, however, applies only the price-freshness gate: it
rejects on a stale price but performs no spread check at all — its
result does not depend on the order book — and takes no notional to
clamp. -/
theorem gating_buy_vs_sell (cfg : ExecConfig) (m m2 m3 : Market)
    (sym : String) (usdt qty bp b2 a2 : ℚ) (ex : ExchangeState)
    (tok : String)
    (hspread : (checkSpread cfg.maxSpreadPct m.bid m.ask).1 = false)
    (hstale : m.priceAgeSeconds > cfg.stalePriceSeconds)
    (hspread3 : (checkSpread cfg.maxSpreadPct m3.bid m3.ask).1 = true)
    (hstale3 : m3.priceAgeSeconds > cfg.stalePriceSeconds) :
    executeBuyPaper cfg m sym usdt = Except.error ExecError.spreadTooWide
    ∧ executeBuyLive cfg m ex tok usdt = Except.error ExecError.spreadTooWide
    ∧ executeBuyPaper cfg m3 sym usdt = Except.error ExecError.stalePrice
    ∧ executeBuyLive cfg m3 ex tok usdt = Except.error ExecError.stalePrice
    ∧ executeSellPaper cfg m sym qty bp = Except.error ExecError.stalePrice
    ∧ executeSellPaper cfg { m with bid := b2, ask := a2 } sym qty bp
        = executeSellPaper cfg m sym qty bp
    ∧ (executeBuyPaper cfg m2 sym usdt).map (fun f => f.usdtUsed)
        = (executeBuyPaper cfg m2 sym usdt).map
            (fun _ => min usdt cfg.capitalLimitUsdt) := by
  refine ⟨?_, ?_, ?_, ?_, ?_, rfl, ?_⟩
  · simp only [executeBuyPaper, hspread, Bool.not_false, if_true]
  · simp only [executeBuyLive, hspread, Bool.not_false, if_true]
  · simp only [executeBuyPaper, hspread3, Bool.not_true, Bool.false_eq_true,
      if_false]
    rw [if_pos hstale3]
  · simp only [executeBuyLive, hspread3, Bool.not_true, Bool.false_eq_true,
      if_false]
    rw [if_pos hstale3]
  · rw [executeSellPaper, if_pos hstale]
  · simp only [executeBuyPaper]
    split_ifs <;> rfl

/-- C5 witness: the amended statement at a market `m` whose spread is too
wide and whose price is stale at once (buy rejects on the spread, checked
first; sell rejects on staleness only) and at a market `m3` whose spread
passes but whose price is stale (buy rejects with the stale-price
error). -/
theorem gating_buy_vs_sell_witness :
    (checkSpread ((⟨1/10, 1/20, 1/2, 30, 100⟩ : ExecConfig).maxSpreadPct)
        (⟨100, 102, 101, 60, 2⟩ : Market).bid
        (⟨100, 102, 101, 60, 2⟩ : Market).ask).1 = false
    ∧ (⟨100, 102, 101, 60, 2⟩ : Market).priceAgeSeconds
        > (⟨1/10, 1/20, 1/2, 30, 100⟩ : ExecConfig).stalePriceSeconds
    ∧ (checkSpread ((⟨1/10, 1/20, 1/2, 30, 100⟩ : ExecConfig).maxSpreadPct)
        (⟨100, 100, 100, 60, 2⟩ : Market).bid
        (⟨100, 100, 100, 60, 2⟩ : Market).ask).1 = true
    ∧ (⟨100, 100, 100, 60, 2⟩ : Market).priceAgeSeconds
        > (⟨1/10, 1/20, 1/2, 30, 100⟩ : ExecConfig).stalePriceSeconds
    ∧ (executeBuyPaper ⟨1/10, 1/20, 1/2, 30, 100⟩ ⟨100, 102, 101, 60, 2⟩
          "ETHUSDT" 15 = Except.error ExecError.spreadTooWide
        ∧ executeBuyLive ⟨1/10, 1/20, 1/2, 30, 100⟩ ⟨100, 102, 101, 60, 2⟩
          ⟨[]⟩ "bot_buy_cafecafecafecafe" 15 = Except.error ExecError.spreadTooWide
        ∧ executeBuyPaper ⟨1/10, 1/20, 1/2, 30, 100⟩ ⟨100, 100, 100, 60, 2⟩
          "ETHUSDT" 15 = Except.error ExecError.stalePrice
        ∧ executeBuyLive ⟨1/10, 1/20, 1/2, 30, 100⟩ ⟨100, 100, 100, 60, 2⟩
          ⟨[]⟩ "bot_buy_cafecafecafecafe" 15 = Except.error ExecError.stalePrice
        ∧ executeSellPaper ⟨1/10, 1/20, 1/2, 30, 100⟩ ⟨100, 102, 101, 60, 2⟩
          "ETHUSDT" (3/20) 100 = Except.error ExecError.stalePrice
        ∧ executeSellPaper ⟨1/10, 1/20, 1/2, 30, 100⟩
            { (⟨100, 102, 101, 60, 2⟩ : Market) with bid := 7, ask := 9 }
            "ETHUSDT" (3/20) 100
          = executeSellPaper ⟨1/10, 1/20, 1/2, 30, 100⟩ ⟨100, 102, 101, 60, 2⟩
            "ETHUSDT" (3/20) 100
        ∧ (executeBuyPaper ⟨1/10, 1/20, 1/2, 30, 100⟩ ⟨100, 100, 100, 0, 2⟩
              "ETHUSDT" 250).map (fun f => f.usdtUsed)
          = (executeBuyPaper ⟨1/10, 1/20, 1/2, 30, 100⟩ ⟨100, 100, 100, 0, 2⟩
              "ETHUSDT" 250).map
              (fun _ => min 250 (⟨1/10, 1/20, 1/2, 30, 100⟩ : ExecConfig).capitalLimitUsdt)) := by
  have hspread : (checkSpread ((⟨1/10, 1/20, 1/2, 30, 100⟩ : ExecConfig).maxSpreadPct)
      (⟨100, 102, 101, 60, 2⟩ : Market).bid
      (⟨100, 102, 101, 60, 2⟩ : Market).ask).1 = false := by
    simp only [checkSpread]
    rw [decide_eq_false_iff_not]
    norm_num
  have hstale : (⟨100, 102, 101, 60, 2⟩ : Market).priceAgeSeconds
      > (⟨1/10, 1/20, 1/2, 30, 100⟩ : ExecConfig).stalePriceSeconds := by
    norm_num
  have hspread3 : (checkSpread ((⟨1/10, 1/20, 1/2, 30, 100⟩ : ExecConfig).maxSpreadPct)
      (⟨100, 100, 100, 60, 2⟩ : Market).bid
      (⟨100, 100, 100, 60, 2⟩ : Market).ask).1 = true := by
    simp only [checkSpread]
    rw [decide_eq_true_eq]
    norm_num
  have hstale3 : (⟨100, 100, 100, 60, 2⟩ : Market).priceAgeSeconds
      > (⟨1/10, 1/20, 1/2, 30, 100⟩ : ExecConfig).stalePriceSeconds := by
    norm_num
  exact ⟨hspread, hstale, hspread3, hstale3,
    gating_buy_vs_sell ⟨1/10, 1/20, 1/2, 30, 100⟩ ⟨100, 102, 101, 60, 2⟩
      ⟨100, 100, 100, 0, 2⟩ ⟨100, 100, 100, 60, 2⟩ "ETHUSDT" 250 (3/20) 100 7 9 ⟨[]⟩
      "bot_buy_cafecafecafecafe" hspread hstale hspread3 hstale3⟩

/-- C1: the duplicate-submission guard of the live path cannot ever fire
across calls. Scenario from the claim: a first live buy was submitted
under a fresh token and the exchange holds that order (the call then
timed out); the second call generates a **new** fresh token — the code
draws `uuid4().hex` anew on every call and never reuses a token — so its
pre-submission `get_order` lookup misses the existing order and it places
a second, duplicate order instead of returning the existing one. The
code comments themselves promise "idempotency via clientOrderId" / "no
duplicate orders", but a freshly random id can never match a previously
submitted one. -/
theorem executeBuyLive_duplicates_after_timeout :
    getOrder ⟨[⟨"bot_buy_aaaaaaaaaaaaaaaa", "ETHUSDT", 3/20, 100⟩]⟩
        "bot_buy_aaaaaaaaaaaaaaaa"
      = some ⟨"bot_buy_aaaaaaaaaaaaaaaa", "ETHUSDT", 3/20, 100⟩
    ∧ (executeBuyLive ⟨1/10, 1/20, 1/2, 30, 100⟩ ⟨100, 100, 100, 0, 2⟩
          ⟨[⟨"bot_buy_aaaaaaaaaaaaaaaa", "ETHUSDT", 3/20, 100⟩]⟩
          "bot_buy_bbbbbbbbbbbbbbbb" 15).map LiveBuyOutcome.isPlaced
      = Except.ok true := by
  constructor
  · rfl
  · have hs : (checkSpread ((1:ℚ)/2) 100 100).1 = true := by
      simp only [checkSpread]
      rw [decide_eq_true_eq]
      norm_num
    have hfind : getOrder ⟨[⟨"bot_buy_aaaaaaaaaaaaaaaa", "ETHUSDT", 3/20, 100⟩]⟩
        "bot_buy_bbbbbbbbbbbbbbbb" = none := by rfl
    simp only [executeBuyLive, hs, Bool.not_true, Bool.false_eq_true,
      if_false, hfind]
    norm_num [Except.map, LiveBuyOutcome.isPlaced]

end TradingBot
